import Mathlib

/-!
Verification of the TERMINUS repository (simple_mcp): a shallow embedding of

  * `src/simple_mcp/client/mcp_slack_client.py` — `ChatDatabase.create_session_id`,
    `SlackMCPClient.process_with_context`;
  * `src/simple_mcp/client/client.py` — `ClaudeMCPClient.process_query`;
  * `src/simple_mcp/src/terminal_mcp/server.py` — `run_command`,
    `run_terminal_command`;

together with theorems deciding the specification's testable properties.
External collaborators (the completion service, the MCP tool server, the
filesystem, `subprocess`) are modelled as explicit oracle parameters; every
pure computation of the source (MD5 session digests, result normalization,
POSIX path arithmetic, Windows command translation) is translated directly.
-/

namespace Terminus

/-! ## MD5 (as used by `hashlib.md5(...).hexdigest()` in `create_session_id`)

Arithmetic is on `Nat` reduced modulo `2^32`; messages are byte lists. -/

def m32 (n : Nat) : Nat := n % 4294967296

def add32 (a b : Nat) : Nat := m32 (a + b)

def not32 (x : Nat) : Nat := Nat.xor x 4294967295

def rotl32 (x s : Nat) : Nat :=
  Nat.lor (m32 (Nat.shiftLeft x s)) (Nat.shiftRight x (32 - s))

def mdF (b c d : Nat) : Nat := Nat.lor (Nat.land b c) (Nat.land (not32 b) d)

def mdG (b c d : Nat) : Nat := Nat.lor (Nat.land b d) (Nat.land c (not32 d))

def mdH (b c d : Nat) : Nat := Nat.xor b (Nat.xor c d)

def mdI (b c d : Nat) : Nat := Nat.xor c (Nat.lor b (not32 d))

/-- The 64 MD5 sine-derived constants `T[i] = floor(2^32 * abs(sin(i+1)))`. -/
def mdK : List Nat :=
  [0xd76aa478, 0xe8c7b756, 0x242070db, 0xc1bdceee,
   0xf57c0faf, 0x4787c62a, 0xa8304613, 0xfd469501,
   0x698098d8, 0x8b44f7af, 0xffff5bb1, 0x895cd7be,
   0x6b901122, 0xfd987193, 0xa679438e, 0x49b40821,
   0xf61e2562, 0xc040b340, 0x265e5a51, 0xe9b6c7aa,
   0xd62f105d, 0x02441453, 0xd8a1e681, 0xe7d3fbc8,
   0x21e1cde6, 0xc33707d6, 0xf4d50d87, 0x455a14ed,
   0xa9e3e905, 0xfcefa3f8, 0x676f02d9, 0x8d2a4c8a,
   0xfffa3942, 0x8771f681, 0x6d9d6122, 0xfde5380c,
   0xa4beea44, 0x4bdecfa9, 0xf6bb4b60, 0xbebfbc70,
   0x289b7ec6, 0xeaa127fa, 0xd4ef3085, 0x04881d05,
   0xd9d4d039, 0xe6db99e5, 0x1fa27cf8, 0xc4ac5665,
   0xf4292244, 0x432aff97, 0xab9423a7, 0xfc93a039,
   0x655b59c3, 0x8f0ccc92, 0xffeff47d, 0x85845dd1,
   0x6fa87e4f, 0xfe2ce6e0, 0xa3014314, 0x4e0811a1,
   0xf7537e82, 0xbd3af235, 0x2ad7d2bb, 0xeb86d391]

/-- The 64 per-round left-rotation amounts. -/
def mdS : List Nat :=
  [7, 12, 17, 22, 7, 12, 17, 22, 7, 12, 17, 22, 7, 12, 17, 22,
   5, 9, 14, 20, 5, 9, 14, 20, 5, 9, 14, 20, 5, 9, 14, 20,
   4, 11, 16, 23, 4, 11, 16, 23, 4, 11, 16, 23, 4, 11, 16, 23,
   6, 10, 15, 21, 6, 10, 15, 21, 6, 10, 15, 21, 6, 10, 15, 21]

/-- Little-endian byte decomposition of `n` into `k` bytes. -/
def leBytes : Nat → Nat → List Nat
  | 0, _ => []
  | k + 1, n => (n % 256) :: leBytes k (n / 256)

/-- MD5 padding: append `0x80`, zero bytes to 56 mod 64, then the 64-bit
little-endian bit length. -/
def md5pad (msg : List Nat) : List Nat :=
  let ml := msg.length
  let z := (119 - ml % 64) % 64
  msg ++ [0x80] ++ List.replicate z 0 ++ leBytes 8 ((ml * 8) % 18446744073709551616)

/-- Split a byte list into 64-byte chunks. -/
def toChunks (l : List Nat) : List (List Nat) :=
  if h : l = [] then []
  else l.take 64 :: toChunks (l.drop 64)
termination_by l.length
decreasing_by
  simp only [List.length_drop]
  have hp : 0 < l.length := List.length_pos.mpr h
  omega

/-- Assemble one little-endian 32-bit word from four bytes. -/
def leWord (bs : List Nat) : Nat :=
  match bs with
  | [b0, b1, b2, b3] => b0 + 256 * b1 + 65536 * b2 + 16777216 * b3
  | _ => 0

/-- The sixteen message words of one 64-byte chunk. -/
def chunkWords (c : List Nat) : List Nat :=
  (List.range 16).map fun i => leWord ((c.drop (4 * i)).take 4)

/-- One of the 64 MD5 rounds on state `(a, b, c, d)`. -/
def md5round (M : List Nat) (st : Nat × Nat × Nat × Nat) (i : Nat) :
    Nat × Nat × Nat × Nat :=
  let (a, b, c, d) := st
  let fg : Nat × Nat :=
    if i < 16 then (mdF b c d, i)
    else if i < 32 then (mdG b c d, (5 * i + 1) % 16)
    else if i < 48 then (mdH b c d, (3 * i + 5) % 16)
    else (mdI b c d, (7 * i) % 16)
  let f := add32 (add32 (add32 fg.1 a) (mdK.getD i 0)) (M.getD fg.2 0)
  (d, add32 b (rotl32 f (mdS.getD i 0)), b, c)

/-- Process one 64-byte chunk. -/
def md5chunk (st : Nat × Nat × Nat × Nat) (chunk : List Nat) :
    Nat × Nat × Nat × Nat :=
  let M := chunkWords chunk
  let r := (List.range 64).foldl (md5round M) st
  (add32 st.1 r.1, add32 st.2.1 r.2.1, add32 st.2.2.1 r.2.2.1, add32 st.2.2.2 r.2.2.2)

/-- The 16-byte MD5 digest of a byte list. -/
def md5digest (msg : List Nat) : List Nat :=
  let chunks := toChunks (md5pad msg)
  let r := chunks.foldl md5chunk (0x67452301, 0xefcdab89, 0x98badcfe, 0x10325476)
  leBytes 4 r.1 ++ leBytes 4 r.2.1 ++ leBytes 4 r.2.2.1 ++ leBytes 4 r.2.2.2

def hexDigit (n : Nat) : Char :=
  if n < 10 then Char.ofNat (48 + n) else Char.ofNat (87 + n)

def byteHex (b : Nat) : List Char := [hexDigit (b / 16), hexDigit (b % 16)]

/-- Lowercase hex string of an MD5 digest, as Python's `hexdigest()`. -/
def hexdigest (msg : List Nat) : String :=
  String.mk ((md5digest msg).map byteHex).flatten

/-- UTF-8 encoding of one character. -/
def charUtf8 (c : Char) : List Nat :=
  let n := c.toNat
  if n < 128 then [n]
  else if n < 2048 then [192 + n / 64, 128 + n % 64]
  else if n < 65536 then [224 + n / 4096, 128 + (n / 64) % 64, 128 + n % 64]
  else [240 + n / 262144, 128 + (n / 4096) % 64, 128 + (n / 64) % 64, 128 + n % 64]

/-- UTF-8 byte encoding of a string, as Python's `str.encode()`. -/
def utf8Bytes (s : String) : List Nat := (s.data.map charUtf8).flatten

/-! ## `ChatDatabase.create_session_id` (mcp_slack_client.py, lines 90-93) -/

/-- The `thread_ts or 'main'` component of the f-string: a `None` or empty
(falsy) thread timestamp is replaced by the sentinel `"main"`. -/
def threadComponent (thread_ts : Option String) : String :=
  match thread_ts with
  | some s => if s = "" then "main" else s
  | none => "main"

/-- The digest pre-image `f"{channel_id}:{user_id}:{thread_ts or 'main'}"`. -/
def sessionComponents (channel_id user_id : String) (thread_ts : Option String) :
    String :=
  channel_id ++ ":" ++ user_id ++ ":" ++ threadComponent thread_ts

/-- `ChatDatabase.create_session_id`: MD5 hex digest of the encoded components. -/
def create_session_id (channel_id user_id : String)
    (thread_ts : Option String) : String :=
  hexdigest (utf8Bytes (sessionComponents channel_id user_id thread_ts))

/-- A thread timestamp that is not identified with the `'main'` sentinel by the
`thread_ts or 'main'` encoding: present, non-empty, and not literally `"main"`. -/
def validThread : Option String → Bool
  | none => true
  | some s => !(s = "") && !(s = "main")

theorem append_colon_inj {a₁ a₂ r₁ r₂ : List Char}
    (h₁ : ':' ∉ a₁) (h₂ : ':' ∉ a₂)
    (h : a₁ ++ ':' :: r₁ = a₂ ++ ':' :: r₂) : a₁ = a₂ ∧ r₁ = r₂ := by
  induction a₁ generalizing a₂ with
  | nil =>
    cases a₂ with
    | nil => simpa using h
    | cons c t =>
      simp only [List.nil_append, List.cons_append, List.cons.injEq] at h
      exact absurd (h.1 ▸ List.mem_cons_self c t) h₂
  | cons c t ih =>
    cases a₂ with
    | nil =>
      simp only [List.nil_append, List.cons_append, List.cons.injEq] at h
      exact absurd (h.1 ▸ List.mem_cons_self c t) h₁
    | cons c' t' =>
      simp only [List.cons_append, List.cons.injEq] at h
      have ht := ih (fun hm => h₁ (List.mem_cons_of_mem c hm))
        (fun hm => h₂ (List.mem_cons_of_mem c' hm)) h.2
      exact ⟨by rw [h.1, ht.1], ht.2⟩

theorem threadComponent_inj {t₁ t₂ : Option String}
    (h₁ : validThread t₁ = true) (h₂ : validThread t₂ = true)
    (h : threadComponent t₁ = threadComponent t₂) : t₁ = t₂ := by
  cases t₁ with
  | none =>
    cases t₂ with
    | none => rfl
    | some s =>
      simp only [validThread, Bool.and_eq_true, Bool.not_eq_true', decide_eq_false_iff_not] at h₂
      simp only [threadComponent, if_neg h₂.1] at h
      exact absurd h.symm h₂.2
  | some s =>
    simp only [validThread, Bool.and_eq_true, Bool.not_eq_true', decide_eq_false_iff_not] at h₁
    cases t₂ with
    | none =>
      simp only [threadComponent, if_neg h₁.1] at h
      exact absurd h h₁.2
    | some s' =>
      simp only [validThread, Bool.and_eq_true, Bool.not_eq_true', decide_eq_false_iff_not] at h₂
      simp only [threadComponent, if_neg h₁.1, if_neg h₂.1] at h
      rw [h]

theorem sessionComponents_data (c u : String) (t : Option String) :
    (sessionComponents c u t).data =
      c.data ++ ':' :: (u.data ++ ':' :: (threadComponent t).data) := by
  simp [sessionComponents, String.data_append]

/-- C7, counterexample: `create_session_id` maps the distinct thread inputs
`None` and `"main"` (same channel and user) to the same session id, because
`thread_ts or 'main'` erases the difference before hashing. -/
theorem c7_counterexample :
    create_session_id "C" "U" none = create_session_id "C" "U" (some "main") ∧
      (none : Option String) ≠ some "main" :=
  ⟨rfl, by decide⟩

/-- C7 (amended): `create_session_id` is deterministic, and the digest
pre-image `channel:user:(thread or 'main')` is injective as long as the
channel and user ids contain no `':'` and the thread id is present, non-empty
and not the literal sentinel `"main"`; so distinct such inputs give distinct
session ids up to MD5 collisions, while `None`, `""` and `"main"` thread ids
all produce one id. -/
theorem c7_session_id_determinism_and_preimage_injectivity
    (c₁ u₁ c₂ u₂ : String) (t₁ t₂ : Option String)
    (hc₁ : ':' ∉ c₁.data) (hu₁ : ':' ∉ u₁.data)
    (hc₂ : ':' ∉ c₂.data) (hu₂ : ':' ∉ u₂.data)
    (ht₁ : validThread t₁ = true) (ht₂ : validThread t₂ = true) :
    (∀ c u t, create_session_id c u t = create_session_id c u t) ∧
    (sessionComponents c₁ u₁ t₁ = sessionComponents c₂ u₂ t₂ →
      c₁ = c₂ ∧ u₁ = u₂ ∧ t₁ = t₂) := by
  refine ⟨fun _ _ _ => rfl, fun heq => ?_⟩
  have hd := congrArg String.data heq
  rw [sessionComponents_data, sessionComponents_data] at hd
  obtain ⟨hc, hrest⟩ := append_colon_inj hc₁ hc₂ hd
  obtain ⟨hu, ht⟩ := append_colon_inj hu₁ hu₂ hrest
  exact ⟨String.ext hc, String.ext hu, threadComponent_inj ht₁ ht₂ (String.ext ht)⟩

/-- C7 witness: the amended theorem applied at concrete inputs. -/
theorem c7_witness :
    (':' ∉ "C".data) ∧ validThread (some "x") = true ∧
      sessionComponents "C" "U" none ≠ sessionComponents "C" "U" (some "x") := by
  refine ⟨by decide, by decide, fun h => ?_⟩
  have hr := (c7_session_id_determinism_and_preimage_injectivity
    "C" "U" "C" "U" none (some "x")
    (by decide) (by decide) (by decide) (by decide) (by decide) (by decide)).2 h
  exact absurd hr.2.2 (by decide)

/-! ## POSIX path arithmetic (`os.path` as used by terminal_mcp/server.py)

`isabs`, `join`, `normpath`, `abspath` are translated from CPython's
`posixpath`; `strip` and `split` from `str`. All operate on `String.data`. -/

/-- The whitespace set of Python's `str.strip()` / `str.split()` (ASCII part). -/
def pyIsSpace (c : Char) : Bool :=
  c = ' ' || c = '\t' || c = '\n' || c = '\r' || c = Char.ofNat 11 || c = Char.ofNat 12

def stripChars (l : List Char) : List Char :=
  ((l.dropWhile pyIsSpace).reverse.dropWhile pyIsSpace).reverse

/-- Python `str.strip()` with no argument. -/
def pyStrip (s : String) : String := String.mk (stripChars s.data)

/-- `posixpath.isabs`: the path begins with `'/'`. -/
def isabs (s : String) : Bool := s.data.head? == some '/'

/-- `a.endswith('/')`. -/
def endsWithSep (s : String) : Bool := s.data.getLast? == some '/'

/-- `posixpath.join(a, b)` for two components. -/
def joinPath (a b : String) : String :=
  if isabs b then b
  else if a = "" || endsWithSep a then a ++ b
  else a ++ "/" ++ b

/-- Number of leading slashes `posixpath.normpath` preserves (1, or 2 for a
path starting with exactly two slashes). -/
def initSlashes (cs : List Char) : Nat :=
  if cs.take 3 = ['/', '/', '/'] then 1
  else if cs.take 2 = ['/', '/'] then 2
  else if cs.take 1 = ['/'] then 1
  else 0

/-- Python `path.split('/')`: split on every slash, keeping empty components. -/
def splitSep : List Char → List (List Char)
  | [] => [[]]
  | c :: rest =>
    match splitSep rest with
    | r :: rs => if c = '/' then [] :: r :: rs else (c :: r) :: rs
    | [] => [[]]

/-- One step of `normpath`'s component loop: skip `''` and `'.'`, push
ordinary components and unresolvable `'..'`, pop on a resolvable `'..'`. -/
def stepComp (slashes : Nat) (acc : List (List Char)) (comp : List Char) :
    List (List Char) :=
  if comp = [] ∨ comp = ['.'] then acc
  else if comp ≠ ['.', '.'] ∨ (slashes = 0 ∧ acc = []) ∨
      acc.getLast? = some ['.', '.'] then acc ++ [comp]
  else if acc ≠ [] then acc.dropLast
  else acc

/-- `posixpath.normpath` on a character list. -/
def normpathCore (cs : List Char) : String :=
  if cs = [] then "."
  else
    let slashes := initSlashes cs
    let newComps := (splitSep cs).foldl (stepComp slashes) []
    let joined := List.intercalate ['/'] newComps
    let result := List.replicate slashes '/' ++ joined
    if result = [] then "." else String.mk result

/-- `posixpath.normpath`. -/
def normpath (s : String) : String := normpathCore s.data

/-- `posixpath.abspath`: resolve against the process working directory when
relative, then normalize. -/
def abspath (procCwd : String) (p : String) : String :=
  normpath (if isabs p then p else joinPath procCwd p)

/-! ## The command-execution tool (terminal_mcp/server.py) -/

/-- The filesystem oracle behind `os.path.exists` / `os.path.isdir`. -/
structure FileSystem where
  pathExists : String → Bool
  isDir : String → Bool

/-- Captured output of a completed subprocess, already decoded
(`decode('utf-8', errors='replace')`). -/
structure SpawnResult where
  stdout : String
  stderr : String
  returncode : Int

/-- Ambient process environment of the tool server: filesystem, the Python
process's own working directory (used by `os.path.abspath`), the value of
`platform.system()`, and the subprocess oracle `spawn command cwd`, which
either faults (the string is `str(e)`) or completes. -/
structure ExecEnv where
  fs : FileSystem
  procCwd : String
  system : String
  spawn : String → String → Except String SpawnResult

/-- The result dictionary produced by `run_command`. -/
structure CmdResult where
  stdout : String
  stderr : String
  return_code : Int
  new_cwd : String
deriving DecidableEq

/-- `command.startswith("cd ")`. -/
def isCdCmd (command : String) : Bool :=
  command.data.take 3 == ['c', 'd', ' ']

/-- `cwd or current_directory`: Python's falsy-`or` on the optional argument. -/
def baseDir (cwd : Option String) (cur : String) : String :=
  match cwd with
  | some s => if s = "" then cur else s
  | none => cur

/-- `new_dir = command[3:].strip()`. -/
def cdArg (command : String) : String := pyStrip (String.mk (command.data.drop 3))

/-- The resolved directory-change target: the stripped argument itself when
absolute, otherwise joined onto the base directory. -/
def cdTargetDir (base command : String) : String :=
  let nd := cdArg command
  if isabs nd then nd else joinPath base nd

/-- Python `command.split()`: split on whitespace runs, no empty words. -/
def wordsAux : List Char → List Char → List (List Char)
  | [], cur => if cur = [] then [] else [cur.reverse]
  | c :: rest, cur =>
    if pyIsSpace c then
      if cur = [] then wordsAux rest [] else cur.reverse :: wordsAux rest []
    else wordsAux rest (c :: cur)

def pySplitWs (s : String) : List String :=
  (wordsAux s.data []).map String.mk

/-- The Unix-to-Windows command translation table of `run_command`. -/
def command_map : List (String × String) :=
  [("ls", "dir"), ("pwd", "cd"), ("cat", "type"), ("rm", "del"),
   ("clear", "cls"), ("mkdir", "mkdir"), ("touch", "echo. >")]

/-- The Windows branch: replace a mapped head word and re-join with single
spaces; an all-whitespace command faults with Python's IndexError text. -/
def translateWindows (command : String) : Except String String :=
  match pySplitWs command with
  | [] => .error "list index out of range"
  | w :: ws =>
    match command_map.lookup w with
    | some w' => .ok (String.intercalate " " (w' :: ws))
    | none => .ok command

/-- The subprocess path of `run_command`: translate on Windows, spawn, and
convert any fault into a `-1` result. -/
def execSubprocess (env : ExecEnv) (command base : String) : CmdResult :=
  let tc := if env.system = "Windows" then translateWindows command else .ok command
  match tc with
  | .error e => ⟨"", "Error executing command: " ++ e, -1, base⟩
  | .ok c =>
    match env.spawn c base with
    | .error e => ⟨"", "Error executing command: " ++ e, -1, base⟩
    | .ok r => ⟨r.stdout, r.stderr, r.returncode, base⟩

/-- `run_command` (server.py, lines 32-102). `cur` is the module-global
`current_directory`, passed explicitly. -/
def run_command (env : ExecEnv) (command : String) (cwd : Option String)
    (cur : String) : CmdResult :=
  let base := baseDir cwd cur
  if isCdCmd command then
    let target_dir := cdTargetDir base command
    if env.fs.pathExists target_dir && env.fs.isDir target_dir then
      ⟨"Changed directory to: " ++ target_dir, "", 0, abspath env.procCwd target_dir⟩
    else
      ⟨"", "Directory not found: " ++ target_dir, 1, base⟩
  else execSubprocess env command base

/-- The human-readable block built by `run_terminal_command`. -/
def formatTermOutput (command working_dir : String) (r : CmdResult) : String :=
  let o := "Command: " ++ command ++ "\n" ++ "Working Directory: " ++ working_dir
    ++ "\n" ++ "Return Code: " ++ toString r.return_code ++ "\n\n"
  let o := if r.stdout ≠ "" then o ++ "Output:\n" ++ r.stdout ++ "\n" else o
  if r.stderr ≠ "" then o ++ "Error:\n" ++ r.stderr ++ "\n" else o

/-- `run_terminal_command` (server.py, lines 104-131): returns the formatted
output together with the updated module-global `current_directory`. -/
def run_terminal_command (env : ExecEnv) (command : String)
    (working_directory : Option String) (cur : String) : String × String :=
  let working_dir := baseDir working_directory cur
  let result := run_command env command (some working_dir) cur
  let cur' :=
    if isCdCmd command && decide (result.return_code = 0) then result.new_cwd
    else cur
  (formatTermOutput command working_dir result, cur')

/-! ## Path lemmas -/

theorem str_append_empty (s : String) : s ++ "" = s := String.append_empty s

theorem splitSep_ne_nil : ∀ (l : List Char), splitSep l ≠ []
  | [] => by simp [splitSep]
  | c :: rest => by
    unfold splitSep
    cases h : splitSep rest with
    | nil => simp
    | cons r rs => by_cases hc : c = '/' <;> simp [hc]

theorem splitSep_append_slash : ∀ (cs : List Char),
    splitSep (cs ++ ['/']) = splitSep cs ++ [[]]
  | [] => rfl
  | c :: rest => by
    have ih := splitSep_append_slash rest
    show splitSep (c :: (rest ++ ['/'])) = splitSep (c :: rest) ++ [[]]
    unfold splitSep
    rw [ih]
    cases h : splitSep rest with
    | nil => exact absurd h (splitSep_ne_nil rest)
    | cons r rs => by_cases hc : c = '/' <;> simp [hc]

theorem stepComp_nil (slashes : Nat) (acc : List (List Char)) :
    stepComp slashes acc [] = acc := by
  simp [stepComp]

theorem initSlashes_take3 (l₁ l₂ : List Char) (h : l₁.take 3 = l₂.take 3) :
    initSlashes l₁ = initSlashes l₂ := by
  unfold initSlashes
  rw [show l₁.take 2 = (l₁.take 3).take 2 by simp [List.take_take],
    show l₁.take 1 = (l₁.take 3).take 1 by simp [List.take_take],
    show l₂.take 2 = (l₂.take 3).take 2 by simp [List.take_take],
    show l₂.take 1 = (l₂.take 3).take 1 by simp [List.take_take], h]

theorem initSlashes_append_slash (cs : List Char) (h1 : cs.head? = some '/')
    (h2 : cs.getLast? ≠ some '/') :
    initSlashes (cs ++ ['/']) = initSlashes cs := by
  cases cs with
  | nil => simp at h1
  | cons c cs₂ =>
    simp only [List.head?_cons, Option.some.injEq] at h1
    subst h1
    cases cs₂ with
    | nil => exact absurd rfl h2
    | cons c₂ cs₃ =>
      by_cases hc₂ : c₂ = '/'
      · subst hc₂
        cases cs₃ with
        | nil => exact absurd rfl h2
        | cons c₃ cs₄ =>
          exact initSlashes_take3 _ _ (by simp [List.take])
      · cases cs₃ with
        | nil => simp [initSlashes, List.take, hc₂]
        | cons c₃ cs₄ =>
          exact initSlashes_take3 _ _ (by simp [List.take])

theorem normpathCore_append_slash (cs : List Char) (h1 : cs.head? = some '/')
    (h2 : cs.getLast? ≠ some '/') :
    normpathCore (cs ++ ['/']) = normpathCore cs := by
  have hne : cs ≠ [] := by intro h; rw [h] at h1; simp at h1
  have hne' : cs ++ ['/'] ≠ [] := by simp
  unfold normpathCore
  rw [if_neg hne', if_neg hne, initSlashes_append_slash cs h1 h2,
    splitSep_append_slash]
  simp only [List.foldl_append, List.foldl_cons, List.foldl_nil, stepComp_nil]

theorem normpath_append_slash (b : String) (habs : isabs b = true)
    (hends : endsWithSep b = false) : normpath (b ++ "/") = normpath b := by
  have h1 : b.data.head? = some '/' := by
    simpa [isabs] using habs
  have h2 : b.data.getLast? ≠ some '/' := by
    simpa [endsWithSep] using hends
  show normpathCore (b ++ "/").data = normpathCore b.data
  rw [String.data_append]
  exact normpathCore_append_slash b.data h1 h2

theorem isabs_ne_empty {b : String} (habs : isabs b = true) : b ≠ "" := by
  intro h
  rw [h] at habs
  simp [isabs] at habs

theorem joinPath_empty (b : String) (hb : b ≠ "") :
    joinPath b "" = if endsWithSep b then b else b ++ "/" := by
  unfold joinPath
  rw [if_neg (by simp [isabs])]
  by_cases he : endsWithSep b
  · simp [hb, he, str_append_empty]
  · simp [hb, he, str_append_empty]

theorem isabs_append_slash (b : String) (habs : isabs b = true) :
    isabs (b ++ "/") = true := by
  have h1 : b.data.head? = some '/' := by simpa [isabs] using habs
  have hbne : b.data ≠ [] := by intro h; rw [h] at h1; simp at h1
  simp only [isabs, String.data_append]
  cases hd : b.data with
  | nil => exact absurd hd hbne
  | cons c t =>
    rw [hd] at h1
    simp at h1
    simp [h1]

theorem isabs_joinPath_empty (b : String) (habs : isabs b = true) :
    isabs (joinPath b "") = true := by
  rw [joinPath_empty b (isabs_ne_empty habs)]
  by_cases he : endsWithSep b
  · simpa [he] using habs
  · rw [if_neg he]
    exact isabs_append_slash b habs

theorem normpath_joinPath_empty (b : String) (habs : isabs b = true) :
    normpath (joinPath b "") = normpath b := by
  rw [joinPath_empty b (isabs_ne_empty habs)]
  by_cases he : endsWithSep b
  · rw [if_pos he]
  · rw [if_neg he]
    exact normpath_append_slash b habs (by simpa using he)

theorem abspath_of_isabs (pc p : String) (h : isabs p = true) :
    abspath pc p = normpath p := by
  unfold abspath
  rw [if_pos h]

theorem abspath_joinPath_empty (pc b : String) (habs : isabs b = true) :
    abspath pc (joinPath b "") = abspath pc b := by
  rw [abspath_of_isabs pc _ (isabs_joinPath_empty b habs),
    abspath_of_isabs pc b habs]
  exact normpath_joinPath_empty b habs

theorem stripChars_all_space (l : List Char) (h : ∀ c ∈ l, pyIsSpace c = true) :
    stripChars l = [] := by
  unfold stripChars
  rw [List.dropWhile_eq_nil_iff.mpr h]
  simp

theorem isCdCmd_cd_append (w : String) : isCdCmd ("cd " ++ w) = true := by
  simp only [isCdCmd, String.data_append]
  rfl

theorem cdArg_cd_append (w : String) : cdArg ("cd " ++ w) = pyStrip w := by
  simp only [cdArg, String.data_append]
  rfl

/-! ## Claims C5, C6, C10 -/

/-- C5: a command beginning with `"cd "` is handled as a pure
directory-change. With the argument stripped and resolved against the given
working directory (or the remembered current directory) unless absolute: when
the filesystem reports the resolved path as an existing directory the result
has `return_code = 0` and `new_cwd` equal to its absolute form; otherwise the
result has a non-zero `return_code`, a non-empty stderr message, and `new_cwd`
equal to the prior value. In both cases the result is independent of the
subprocess oracle: no subprocess is launched. -/
theorem c5_cd_directory_change (env : ExecEnv) (command : String)
    (cwd : Option String) (cur : String) (h : isCdCmd command = true) :
    ((env.fs.pathExists (cdTargetDir (baseDir cwd cur) command) &&
        env.fs.isDir (cdTargetDir (baseDir cwd cur) command)) = true →
      (run_command env command cwd cur).return_code = 0 ∧
      (run_command env command cwd cur).new_cwd =
        abspath env.procCwd (cdTargetDir (baseDir cwd cur) command)) ∧
    ((env.fs.pathExists (cdTargetDir (baseDir cwd cur) command) &&
        env.fs.isDir (cdTargetDir (baseDir cwd cur) command)) = false →
      (run_command env command cwd cur).return_code ≠ 0 ∧
      (run_command env command cwd cur).stderr ≠ "" ∧
      (run_command env command cwd cur).new_cwd = baseDir cwd cur) ∧
    (∀ sp', run_command { env with spawn := sp' } command cwd cur =
      run_command env command cwd cur) := by
  refine ⟨fun hdir => ?_, fun hdir => ?_, fun sp' => ?_⟩
  · simp [run_command, h, hdir]
  · refine ⟨by simp [run_command, h, hdir], ?_, by simp [run_command, h, hdir]⟩
    simp only [run_command, h, if_true, hdir, Bool.false_eq_true, if_false]
    intro hemp
    have := congrArg String.data hemp
    simp [String.data_append] at this
  · simp [run_command, h]

/-- Filesystem and environment used by concrete witnesses: `/`, `/home` and
`/home/user` exist and are directories; the subprocess oracle faults. -/
def fsW : FileSystem :=
  ⟨fun s => s = "/" || s = "/home" || s = "/home/user" || s = "/home/" || s = "/home/user/",
   fun s => s = "/" || s = "/home" || s = "/home/user" || s = "/home/" || s = "/home/user/"⟩

def envW : ExecEnv := ⟨fsW, "/", "Linux", fun _ _ => .error "no subprocess"⟩

/-- Environment whose subprocess oracle always succeeds with exit code 0. -/
def envOk : ExecEnv := ⟨fsW, "/", "Linux", fun _ _ => .ok ⟨"listing", "", 0⟩⟩

/-- C5 witness: `cd /home` against the concrete filesystem. -/
theorem c5_witness :
    isCdCmd "cd /home" = true ∧
    (run_command envW "cd /home" none "/").return_code = 0 ∧
    (run_command envW "cd /home" none "/").new_cwd = "/home" := by
  have h := c5_cd_directory_change envW "cd /home" none "/" (by decide)
  have h1 := h.1 (by decide)
  exact ⟨by decide, h1.1, by rw [h1.2]; decide⟩

/-- C6: the module-global current directory is committed only by a successful
directory change. `run_terminal_command` leaves it unchanged for every
command not starting with `"cd "` (whatever its exit code, including a
successful subprocess) and for every failed directory change; after a
successful `"cd "` it becomes the result's `new_cwd`. -/
theorem c6_current_directory_commit (env : ExecEnv) (command : String)
    (working_directory : Option String) (cur : String) :
    (isCdCmd command = false →
      (run_terminal_command env command working_directory cur).2 = cur) ∧
    (isCdCmd command = true →
      (run_command env command (some (baseDir working_directory cur)) cur).return_code ≠ 0 →
      (run_terminal_command env command working_directory cur).2 = cur) ∧
    (isCdCmd command = true →
      (run_command env command (some (baseDir working_directory cur)) cur).return_code = 0 →
      (run_terminal_command env command working_directory cur).2 =
        (run_command env command (some (baseDir working_directory cur)) cur).new_cwd) := by
  refine ⟨fun hcd => ?_, fun hcd hrc => ?_, fun hcd hrc => ?_⟩
  · simp [run_terminal_command, hcd]
  · simp [run_terminal_command, hcd, hrc]
  · simp [run_terminal_command, hcd, hrc]

/-- C6 witness: a non-`cd` command that exits 0 leaves the ambient directory
untouched, and a successful `cd` commits it. -/
theorem c6_witness :
    isCdCmd "ls" = false ∧
    (run_command envOk "ls" (some "/home") "/home").return_code = 0 ∧
    (run_terminal_command envOk "ls" none "/home").2 = "/home" ∧
    (run_terminal_command envW "cd /home/user" none "/home").2 = "/home/user" := by
  refine ⟨by decide, by decide, ?_, ?_⟩
  · exact (c6_current_directory_commit envOk "ls" none "/home").1 (by decide)
  · have h := (c6_current_directory_commit envW "cd /home/user" none "/home").2.2
      (by decide) (by decide)
    rw [h]
    decide

/-- C10: a command that is `"cd "` followed only by whitespace strips to an
empty argument, which resolves to the working directory itself: when that
directory exists, the result has `return_code = 0` and `new_cwd` equal to the
directory's absolute path. The bare command `"cd"` (no trailing space) is not
recognized as a directory change and goes to the subprocess path. -/
theorem c10_cd_blank_argument (env : ExecEnv) (w : String) (cwd : Option String)
    (cur : String) (hw : ∀ c ∈ w.data, pyIsSpace c = true)
    (habs : isabs (baseDir cwd cur) = true)
    (hdir : (env.fs.pathExists (joinPath (baseDir cwd cur) "") &&
        env.fs.isDir (joinPath (baseDir cwd cur) "")) = true) :
    (run_command env ("cd " ++ w) cwd cur).return_code = 0 ∧
    (run_command env ("cd " ++ w) cwd cur).new_cwd =
      abspath env.procCwd (baseDir cwd cur) ∧
    isCdCmd "cd" = false ∧
    run_command env "cd" cwd cur = execSubprocess env "cd" (baseDir cwd cur) := by
  have harg : cdArg ("cd " ++ w) = "" := by
    rw [cdArg_cd_append]
    show String.mk (stripChars w.data) = ""
    rw [stripChars_all_space w.data hw]
  have htarget : cdTargetDir (baseDir cwd cur) ("cd " ++ w) =
      joinPath (baseDir cwd cur) "" := by
    simp [cdTargetDir, harg, isabs]
  refine ⟨?_, ?_, by decide, ?_⟩
  · simp [run_command, isCdCmd_cd_append w, htarget, hdir]
  · simp only [run_command, isCdCmd_cd_append w, if_true, htarget, hdir]
    exact abspath_joinPath_empty env.procCwd (baseDir cwd cur) habs
  · simp [run_command, show isCdCmd "cd" = false by decide]

/-- C10 witness: `"cd  "` (trailing whitespace only) under `/home`. -/
theorem c10_witness :
    (∀ c ∈ (" " : String).data, pyIsSpace c = true) ∧
    (run_command envW ("cd " ++ " ") none "/home").return_code = 0 ∧
    (run_command envW ("cd " ++ " ") none "/home").new_cwd = "/home" ∧
    run_command envW "cd" none "/home" = execSubprocess envW "cd" "/home" := by
  have h := c10_cd_blank_argument envW " " none "/home" (by decide) (by decide)
    (by decide)
  exact ⟨by decide, h.1, by rw [h.2.1]; decide, h.2.2.2⟩

/-! ## The orchestration loop (client.py `process_query`,
mcp_slack_client.py `process_with_context`)

The completion service and the MCP tool server are oracles in `LoopEnv`.
A response content block is a duck-typed object: `text`, `tool_use`, or any
other `type` tag (`other`), which both clients silently skip when converting
to history dicts. Tool inputs are carried as opaque strings, as the loop
never inspects them. -/

inductive Role
  | user
  | assistant
deriving DecidableEq

/-- A content block of a completion-service response. -/
inductive RespBlock
  | text (s : String)
  | toolUse (id name input : String)
  | other (tag : String)
deriving DecidableEq

/-- A content block of a history message dict. -/
inductive ContentBlock
  | text (s : String)
  | toolUse (id name input : String)
  | toolResult (tool_use_id : String) (content : String)
deriving DecidableEq

structure Message where
  role : Role
  content : List ContentBlock
deriving DecidableEq

/-- A raw MCP `call_tool` result: either a Python list whose parts each have
an optional `text` attribute, or a non-list value carried as its `str` text. -/
inductive RawResult
  | parts (l : List (Option String))
  | scalar (v : String)
deriving DecidableEq

/-- Oracles of one orchestrator invocation: the completion service (which may
fault with `str(e)`), the tool server, and the Python serializers
`json.dumps(..., default=str)` and `str(...)` applied to a raw result. -/
structure LoopEnv where
  complete : List Message → Except String (List RespBlock)
  call_tool : String → String → Except String RawResult
  dumps : RawResult → String
  strRepr : RawResult → String

/-- The per-block conversion of response content to history-dict form:
`text` and `tool_use` blocks are kept verbatim, any other `type` is skipped. -/
def keepBlock : RespBlock → Option ContentBlock
  | .text s => some (.text s)
  | .toolUse i n inp => some (.toolUse i n inp)
  | .other _ => none

/-- `assistant_content_dicts`: the converted assistant content. -/
def convertBlocks (bs : List RespBlock) : List ContentBlock :=
  bs.filterMap keepBlock

/-- The `tool_use` blocks of a response, in emission order, as
`(id, name, input)`. -/
def toolUses (bs : List RespBlock) : List (String × String × String) :=
  bs.filterMap fun b =>
    match b with
    | .toolUse i n inp => some (i, n, inp)
    | _ => none

/-- The `text` blocks of a response, in order. -/
def textBlocks (bs : List RespBlock) : List String :=
  bs.filterMap fun b =>
    match b with
    | .text s => some s
    | _ => none

/-- Python slicing `s[:10000]`. -/
def cap10000 (s : String) : String := String.mk (s.data.take 10000)

/-- Result normalization shared verbatim by both clients: first part's truthy
`text` if the result is a non-empty list, else the capped `json.dumps` of the
list, else the capped `str` of the value. -/
def normalize (dumps strRepr : RawResult → String) (r : RawResult) : String :=
  match r with
  | .parts (p :: _) =>
    match p with
    | some t => if t = "" then cap10000 (dumps r) else t
    | none => cap10000 (dumps r)
  | .parts [] => cap10000 (strRepr r)
  | .scalar _ => cap10000 (strRepr r)

/-- One tool dispatch in the console client: call the tool, normalize, and on
any fault substitute the error text. -/
def dispatchTool (env : LoopEnv) (name input : String) : String :=
  match env.call_tool name input with
  | .ok raw => normalize env.dumps env.strRepr raw
  | .error e => "Error executing tool '" ++ name ++ "': " ++ e

/-- The single user message's tool-result blocks for one assistant turn. -/
def resultsFor (env : LoopEnv) (tus : List (String × String × String)) :
    List ContentBlock :=
  tus.map fun t => ContentBlock.toolResult t.1 (dispatchTool env t.2.1 t.2.2)

/-- `"\n".join(texts).strip()` with the given no-text placeholder. -/
def finalAnswer (placeholder : String) (bs : List RespBlock) : String :=
  if textBlocks bs = [] then placeholder
  else pyStrip (String.intercalate "\n" (textBlocks bs))

/-- Observable outcome of the console loop: the returned string, the number
of completion-service calls made, and the final conversation list. -/
structure LoopOut where
  answer : String
  calls : Nat
  msgs : List Message
deriving DecidableEq

/-- The `for turn in range(MAX_TURNS)` loop of `ClaudeMCPClient.process_query`
(client.py lines 105-189), by remaining turns. Zero remaining turns returns
the exhaustion sentinel. -/
def runLoop (env : LoopEnv) : Nat → List Message → LoopOut
  | 0, msgs => ⟨"Conversation exceeded maximum turns.", 0, msgs⟩
  | fuel + 1, msgs =>
    match env.complete msgs with
    | .error e => ⟨"Error calling Claude: " ++ e, 1, msgs⟩
    | .ok content =>
      let msgs1 := msgs ++ [⟨.assistant, convertBlocks content⟩]
      if toolUses content = [] then
        ⟨finalAnswer "(No text returned.)" content, 1, msgs1⟩
      else
        let out := runLoop env fuel
          (msgs1 ++ [⟨.user, resultsFor env (toolUses content)⟩])
        ⟨out.answer, out.calls + 1, out.msgs⟩

/-- `ClaudeMCPClient.process_query`: 100 turns starting from the single
user message. -/
def process_query (env : LoopEnv) (query : String) : LoopOut :=
  runLoop env 100 [⟨.user, [.text query]⟩]

/-! ### The Slack client variant, with persistence -/

/-- A `ChatDatabase` write: `save_message` or `save_tool_call`. -/
inductive DbEvent
  | msg (session_id role content : String)
  | toolCall (session_id tool_name input output status : String)
deriving DecidableEq

structure SLoopOut where
  answer : String
  calls : Nat
  msgs : List Message
  db : List DbEvent
deriving DecidableEq

/-- One tool dispatch in the Slack client: the result text together with the
`save_tool_call` row. On success the normalized text is persisted with status
`"success"`; on a fault the raw `str(e)` is persisted with status `"error"`
while the result block carries the decorated message. -/
def dispatchToolS (env : LoopEnv) (sid name input : String) :
    String × DbEvent :=
  match env.call_tool name input with
  | .ok raw =>
    let t := normalize env.dumps env.strRepr raw
    (t, .toolCall sid name input t "success")
  | .error e =>
    ("Error executing tool '" ++ name ++ "': " ++ e,
      .toolCall sid name input e "error")

/-- Tool-result blocks and `save_tool_call` rows for one assistant turn of
the Slack client, in dispatch order. -/
def resultsForS (env : LoopEnv) (sid : String)
    (tus : List (String × String × String)) :
    List ContentBlock × List DbEvent :=
  (tus.map fun t => ContentBlock.toolResult t.1 (dispatchToolS env sid t.2.1 t.2.2).1,
   tus.map fun t => (dispatchToolS env sid t.2.1 t.2.2).2)

/-- The `for turn in range(MAX_TURNS)` loop of
`SlackMCPClient.process_with_context` (mcp_slack_client.py lines 255-341). -/
def runLoopS (env : LoopEnv) (sid : String) : Nat → List Message → SLoopOut
  | 0, msgs => ⟨"Conversation exceeded maximum turns.", 0, msgs, []⟩
  | fuel + 1, msgs =>
    match env.complete msgs with
    | .error e => ⟨" Error: " ++ e, 1, msgs, []⟩
    | .ok content =>
      let msgs1 := msgs ++ [⟨.assistant, convertBlocks content⟩]
      if toolUses content = [] then
        let ft := finalAnswer "(No response)" content
        ⟨ft, 1, msgs1, [.msg sid "assistant" ft]⟩
      else
        let rb := resultsForS env sid (toolUses content)
        let out := runLoopS env sid fuel (msgs1 ++ [⟨.user, rb.1⟩])
        ⟨out.answer, out.calls + 1, out.msgs, rb.2 ++ out.db⟩

/-- `SlackMCPClient.process_with_context`: save the user query, seed the
conversation from `history[:-1]` (the stored rows, oldest first, excluding
the just-saved current query), append the query, and run at most 10 turns. -/
def process_with_context (env : LoopEnv) (sid query : String)
    (history : List (Role × String)) : SLoopOut :=
  let initMsgs := history.dropLast.map (fun h => (⟨h.1, [.text h.2]⟩ : Message))
    ++ [⟨.user, [.text query]⟩]
  let out := runLoopS env sid 10 initMsgs
  ⟨out.answer, out.calls, out.msgs, DbEvent.msg sid "user" query :: out.db⟩

/-! ## Claim C2 -/

/-- A 10,001-character tool text. -/
def longText : String := String.mk (List.replicate 10001 'a')

/-- A trivial serializer oracle for concrete instances. -/
def zeroSerializer : RawResult → String := fun _ => ""

/-- The first part's truthy textual payload of a raw result, when the result
is a non-empty list whose first part carries a non-empty `text`. -/
def firstTextPayload : RawResult → Option String
  | .parts (some t :: _) => if t = "" then none else some t
  | _ => none

/-- C2, counterexample: a sequence-shaped tool result whose first part
carries a 10,001-character textual payload is passed through `normalize`
un-truncated — the `[:10000]` cap is applied only on the serializer
fallbacks, so the persisted/returned text exceeds the cap. -/
theorem c2_counterexample :
    (normalize zeroSerializer zeroSerializer
      (RawResult.parts [some longText])).length = 10001 ∧
    ¬ (normalize zeroSerializer zeroSerializer
      (RawResult.parts [some longText])).length ≤ 10000 := by
  have hlen : longText.length = 10001 := by
    show (String.mk (List.replicate 10001 'a')).length = 10001
    rw [String.length_mk, List.length_replicate]
  have hne : ¬ longText = "" := by
    intro h
    rw [h] at hlen
    exact absurd hlen (by decide)
  have hnorm : normalize zeroSerializer zeroSerializer
      (RawResult.parts [some longText]) = longText := by
    simp only [normalize, if_neg hne]
  rw [hnorm, hlen]
  omega

/-- C2 (amended): the 10,000-character truncation is applied whenever the
raw result is normalized through a serializer — a non-list value, an empty
list, or a non-empty list whose first part has no truthy `text` — but a
non-empty list whose first part carries a non-empty textual payload is
returned verbatim, with no cap. -/
theorem c2_truncation_on_serializer_paths (d sr : RawResult → String)
    (r : RawResult) :
    (∀ t, firstTextPayload r = some t → normalize d sr r = t) ∧
    (firstTextPayload r = none → (normalize d sr r).length ≤ 10000) := by
  have hcap : ∀ s, (cap10000 s).length ≤ 10000 := by
    intro s
    simp only [cap10000, String.length_mk, List.length_take]
    omega
  cases r with
  | scalar v => exact ⟨fun t ht => by simp [firstTextPayload] at ht,
      fun _ => hcap _⟩
  | parts l =>
    cases l with
    | nil => exact ⟨fun t ht => by simp [firstTextPayload] at ht,
        fun _ => hcap _⟩
    | cons p rest =>
      cases p with
      | none => exact ⟨fun t ht => by simp [firstTextPayload] at ht,
          fun _ => hcap _⟩
      | some t0 =>
        by_cases h0 : t0 = ""
        · subst h0
          exact ⟨fun t ht => by simp [firstTextPayload] at ht,
            fun _ => by simp [normalize]; exact hcap _⟩
        · refine ⟨fun t ht => ?_, fun hnone => ?_⟩
          · simp [firstTextPayload, h0] at ht
            subst ht
            simp [normalize, h0]
          · simp [firstTextPayload, h0] at hnone

/-- C2 witness: the amended theorem applied to a non-list raw result. -/
theorem c2_witness :
    firstTextPayload (RawResult.scalar "v") = none ∧
    (normalize zeroSerializer zeroSerializer (RawResult.scalar "v")).length ≤ 10000 :=
  ⟨rfl, (c2_truncation_on_serializer_paths zeroSerializer zeroSerializer
    (RawResult.scalar "v")).2 rfl⟩

/-! ## Claims C1, C3, C4 -/

/-- Correlation id carried by a history content block (`tool_use_id` for a
tool-result block, `id` for a tool-use block, none for text). -/
def resId : ContentBlock → String
  | .toolResult i _ => i
  | .toolUse i _ _ => i
  | .text _ => ""

theorem runLoop_tool_round (env : LoopEnv) (fuel : Nat) (msgs : List Message)
    (bs : List RespBlock) (hc : env.complete msgs = .ok bs)
    (hne : toolUses bs ≠ []) :
    runLoop env (fuel + 1) msgs =
      ⟨(runLoop env fuel (msgs ++ [⟨.assistant, convertBlocks bs⟩,
          ⟨.user, resultsFor env (toolUses bs)⟩])).answer,
        (runLoop env fuel (msgs ++ [⟨.assistant, convertBlocks bs⟩,
          ⟨.user, resultsFor env (toolUses bs)⟩])).calls + 1,
        (runLoop env fuel (msgs ++ [⟨.assistant, convertBlocks bs⟩,
          ⟨.user, resultsFor env (toolUses bs)⟩])).msgs⟩ := by
  simp [runLoop, hc, hne]

theorem runLoop_calls_pos (env : LoopEnv) (fuel : Nat) (msgs : List Message)
    (h : 1 ≤ fuel) : 1 ≤ (runLoop env fuel msgs).calls := by
  cases fuel with
  | zero => exact absurd h (by omega)
  | succ f =>
    simp only [runLoop]
    cases hc : env.complete msgs with
    | error e => simp
    | ok content => by_cases ht : toolUses content = [] <;> simp [ht]

/-- C1: when a completion reply contains tool uses, the loop appends the
assistant message and then exactly one user-role message whose content is one
tool-result block per tool-use block, in emission order; the list of result
correlation ids equals the list of tool-use ids, and (the service minting
distinct ids) each result id matches exactly one tool-use block. The Slack
client builds the identical correspondence. -/
theorem c1_tool_result_bijection (env : LoopEnv) (sid : String) (fuel : Nat)
    (msgs : List Message) (bs : List RespBlock)
    (hc : env.complete msgs = .ok bs) (hne : toolUses bs ≠ [])
    (hnd : ((toolUses bs).map Prod.fst).Nodup) :
    runLoop env (fuel + 1) msgs =
      ⟨(runLoop env fuel (msgs ++ [⟨.assistant, convertBlocks bs⟩,
          ⟨.user, resultsFor env (toolUses bs)⟩])).answer,
        (runLoop env fuel (msgs ++ [⟨.assistant, convertBlocks bs⟩,
          ⟨.user, resultsFor env (toolUses bs)⟩])).calls + 1,
        (runLoop env fuel (msgs ++ [⟨.assistant, convertBlocks bs⟩,
          ⟨.user, resultsFor env (toolUses bs)⟩])).msgs⟩ ∧
    (resultsFor env (toolUses bs)).length = (toolUses bs).length ∧
    (resultsFor env (toolUses bs)).map resId = (toolUses bs).map Prod.fst ∧
    (∀ b ∈ resultsFor env (toolUses bs),
      ∃! t, t ∈ toolUses bs ∧ Prod.fst t = resId b) ∧
    (resultsForS env sid (toolUses bs)).1.length = (toolUses bs).length ∧
    (resultsForS env sid (toolUses bs)).1.map resId = (toolUses bs).map Prod.fst := by
  refine ⟨runLoop_tool_round env fuel msgs bs hc hne, by simp [resultsFor],
    ?_, fun b hb => ?_, by simp [resultsForS], ?_⟩
  · simp only [resultsFor, List.map_map]
    exact List.map_congr_left fun t _ => rfl
  · obtain ⟨t, htm, rfl⟩ := List.mem_map.mp hb
    refine ⟨t, ⟨htm, rfl⟩, fun t' ht' => ?_⟩
    exact List.inj_on_of_nodup_map hnd ht'.1 htm ht'.2
  · simp only [resultsForS, List.map_map]
    exact List.map_congr_left fun t _ => rfl

/-- Loop oracle whose completion service always requests one tool use and
whose tool server always faults. -/
def envAllTools : LoopEnv :=
  ⟨fun _ => .ok [.toolUse "id1" "tool" "input"],
   fun _ _ => .error "boom", fun _ => "", fun _ => ""⟩

/-- C1 witness: the theorem applied against `envAllTools`. -/
theorem c1_witness :
    toolUses [RespBlock.toolUse "id1" "tool" "input"] ≠ [] ∧
    (resultsFor envAllTools
      (toolUses [RespBlock.toolUse "id1" "tool" "input"])).map resId =
      (toolUses [RespBlock.toolUse "id1" "tool" "input"]).map Prod.fst := by
  refine ⟨by decide, ?_⟩
  exact (c1_tool_result_bijection envAllTools "s" 0 [] _ rfl (by decide)
    (by decide)).2.2.1

/-- C3: a faulting tool call is contained at the dispatch boundary. The
result text embeds the tool name and the fault, the Slack client records a
`status = "error"` tool-call row carrying the fault, a result block with the
faulting invocation's correlation id still reaches the single user-role
results message, and the loop proceeds to the next completion-service call
(at least one more call is made when turns remain) instead of terminating. -/
theorem c3_tool_fault_contained (env : LoopEnv) (sid name input e i : String)
    (hf : env.call_tool name input = .error e) :
    dispatchTool env name input =
      "Error executing tool '" ++ name ++ "': " ++ e ∧
    dispatchToolS env sid name input =
      ("Error executing tool '" ++ name ++ "': " ++ e,
        .toolCall sid name input e "error") ∧
    (∀ bs, (i, name, input) ∈ toolUses bs →
      ContentBlock.toolResult i ("Error executing tool '" ++ name ++ "': " ++ e)
          ∈ resultsFor env (toolUses bs) ∧
      DbEvent.toolCall sid name input e "error"
          ∈ (resultsForS env sid (toolUses bs)).2) ∧
    (∀ fuel msgs bs, env.complete msgs = .ok bs → toolUses bs ≠ [] →
      (runLoop env (fuel + 1) msgs).calls =
        (runLoop env fuel (msgs ++ [⟨.assistant, convertBlocks bs⟩,
          ⟨.user, resultsFor env (toolUses bs)⟩])).calls + 1 ∧
      (1 ≤ fuel → 2 ≤ (runLoop env (fuel + 1) msgs).calls)) := by
  have hd : dispatchTool env name input =
      "Error executing tool '" ++ name ++ "': " ++ e := by
    simp [dispatchTool, hf]
  have hds : dispatchToolS env sid name input =
      ("Error executing tool '" ++ name ++ "': " ++ e,
        .toolCall sid name input e "error") := by
    simp [dispatchToolS, hf]
  refine ⟨hd, hds, fun bs hmem => ⟨?_, ?_⟩, fun fuel msgs bs hc hne => ?_⟩
  · exact List.mem_map.mpr ⟨(i, name, input), hmem, by rw [hd]⟩
  · exact List.mem_map.mpr ⟨(i, name, input), hmem, by rw [hds]⟩
  · have heq := runLoop_tool_round env fuel msgs bs hc hne
    constructor
    · rw [heq]
    · intro hfuel
      have hp := runLoop_calls_pos env fuel
        (msgs ++ [⟨.assistant, convertBlocks bs⟩,
          ⟨.user, resultsFor env (toolUses bs)⟩]) hfuel
      rw [heq]
      show 2 ≤ (runLoop env fuel (msgs ++ [⟨.assistant, convertBlocks bs⟩,
        ⟨.user, resultsFor env (toolUses bs)⟩])).calls + 1
      omega

/-- C3 witness: the theorem applied against `envAllTools`, whose tool server
faults with `"boom"`. -/
theorem c3_witness :
    envAllTools.call_tool "tool" "input" = .error "boom" ∧
    dispatchTool envAllTools "tool" "input" =
      "Error executing tool '" ++ "tool" ++ "': " ++ "boom" ∧
    2 ≤ (runLoop envAllTools 2 []).calls := by
  have h := c3_tool_fault_contained envAllTools "s" "tool" "input" "boom" "id1" rfl
  refine ⟨rfl, h.1, ?_⟩
  exact (h.2.2.2 1 [] [RespBlock.toolUse "id1" "tool" "input"] rfl
    (by decide)).2 (by omega)

theorem runLoop_all_tools (env : LoopEnv)
    (h : ∀ msgs, ∃ bs, env.complete msgs = .ok bs ∧ toolUses bs ≠ []) :
    ∀ fuel msgs,
      (runLoop env fuel msgs).answer = "Conversation exceeded maximum turns." ∧
      (runLoop env fuel msgs).calls = fuel := by
  intro fuel
  induction fuel with
  | zero => exact fun msgs => ⟨rfl, rfl⟩
  | succ f ih =>
    intro msgs
    obtain ⟨bs, hc, hne⟩ := h msgs
    rw [runLoop_tool_round env f msgs bs hc hne]
    simp [ih]

theorem runLoopS_tool_round (env : LoopEnv) (sid : String) (fuel : Nat)
    (msgs : List Message) (bs : List RespBlock)
    (hc : env.complete msgs = .ok bs) (hne : toolUses bs ≠ []) :
    runLoopS env sid (fuel + 1) msgs =
      ⟨(runLoopS env sid fuel (msgs ++ [⟨.assistant, convertBlocks bs⟩,
          ⟨.user, (resultsForS env sid (toolUses bs)).1⟩])).answer,
        (runLoopS env sid fuel (msgs ++ [⟨.assistant, convertBlocks bs⟩,
          ⟨.user, (resultsForS env sid (toolUses bs)).1⟩])).calls + 1,
        (runLoopS env sid fuel (msgs ++ [⟨.assistant, convertBlocks bs⟩,
          ⟨.user, (resultsForS env sid (toolUses bs)).1⟩])).msgs,
        (resultsForS env sid (toolUses bs)).2 ++
          (runLoopS env sid fuel (msgs ++ [⟨.assistant, convertBlocks bs⟩,
            ⟨.user, (resultsForS env sid (toolUses bs)).1⟩])).db⟩ := by
  simp [runLoopS, hc, hne]

theorem runLoopS_all_tools (env : LoopEnv) (sid : String)
    (h : ∀ msgs, ∃ bs, env.complete msgs = .ok bs ∧ toolUses bs ≠ []) :
    ∀ fuel msgs,
      (runLoopS env sid fuel msgs).answer = "Conversation exceeded maximum turns." ∧
      (runLoopS env sid fuel msgs).calls = fuel := by
  intro fuel
  induction fuel with
  | zero => exact fun msgs => ⟨rfl, rfl⟩
  | succ f ih =>
    intro msgs
    obtain ⟨bs, hc, hne⟩ := h msgs
    rw [runLoopS_tool_round env sid f msgs bs hc hne]
    simp [ih]

/-- C4: if every completion reply requests at least one tool use, the console
client performs exactly 100 rounds and the Slack client exactly 10, and both
then return the fixed exhaustion sentinel. -/
theorem c4_turn_exhaustion (env : LoopEnv) (q sid : String)
    (history : List (Role × String))
    (h : ∀ msgs, ∃ bs, env.complete msgs = .ok bs ∧ toolUses bs ≠ []) :
    (process_query env q).answer = "Conversation exceeded maximum turns." ∧
    (process_query env q).calls = 100 ∧
    (process_with_context env sid q history).answer =
      "Conversation exceeded maximum turns." ∧
    (process_with_context env sid q history).calls = 10 := by
  have h1 := runLoop_all_tools env h 100 [⟨.user, [.text q]⟩]
  have h2 := runLoopS_all_tools env sid h 10
    (history.dropLast.map (fun hh => (⟨hh.1, [.text hh.2]⟩ : Message))
      ++ [⟨.user, [.text q]⟩])
  exact ⟨h1.1, h1.2, h2.1, h2.2⟩

/-- C4 witness: `envAllTools` exhausts both clients' budgets exactly. -/
theorem c4_witness :
    (process_query envAllTools "q").answer =
      "Conversation exceeded maximum turns." ∧
    (process_query envAllTools "q").calls = 100 ∧
    (process_with_context envAllTools "s" "q" []).calls = 10 := by
  have h := c4_turn_exhaustion envAllTools "q" "s" []
    (fun msgs => ⟨[RespBlock.toolUse "id1" "tool" "input"], rfl, by decide⟩)
  exact ⟨h.1, h.2.1, h.2.2.2⟩

/-! ## Claims C8, C9 -/

/-- Loop oracle whose completion service replies with a single block of an
unrecognized `type` tag. -/
def envOtherBlock : LoopEnv :=
  ⟨fun _ => .ok [.other "tool_result"], fun _ _ => .error "",
   fun _ => "", fun _ => ""⟩

/-- C8, counterexample: a response block whose `type` is neither `text` nor
`tool_use` (here tagged `tool_result`) is silently dropped by the conversion,
so the assistant message appended to the transcript is empty while the
response had one block — the conversion is not lossless for every block type. -/
theorem c8_counterexample :
    (process_query envOtherBlock "q").msgs =
      [⟨.user, [.text "q"]⟩, ⟨.assistant, []⟩] ∧
    (convertBlocks [RespBlock.other "tool_result"]).length ≠
      ([RespBlock.other "tool_result"]).length := by
  exact ⟨rfl, by decide⟩

/-- C8 (amended): for every completion reply, both clients unconditionally
append the converted content as a new assistant-role message before any
tool-use handling; the conversion keeps every `text` and `tool_use` block
verbatim, in order, and drops blocks of any other type. -/
theorem c8_transcript_append (env : LoopEnv) (sid : String) (fuel : Nat)
    (msgs : List Message) (bs : List RespBlock)
    (hc : env.complete msgs = .ok bs) :
    ((runLoop env (fuel + 1) msgs).msgs =
      if toolUses bs = [] then msgs ++ [⟨.assistant, convertBlocks bs⟩]
      else (runLoop env fuel (msgs ++ [⟨.assistant, convertBlocks bs⟩,
        ⟨.user, resultsFor env (toolUses bs)⟩])).msgs) ∧
    ((runLoopS env sid (fuel + 1) msgs).msgs =
      if toolUses bs = [] then msgs ++ [⟨.assistant, convertBlocks bs⟩]
      else (runLoopS env sid fuel (msgs ++ [⟨.assistant, convertBlocks bs⟩,
        ⟨.user, (resultsForS env sid (toolUses bs)).1⟩])).msgs) ∧
    (∀ s, keepBlock (.text s) = some (.text s)) ∧
    (∀ i n inp, keepBlock (.toolUse i n inp) = some (.toolUse i n inp)) ∧
    (∀ tag, keepBlock (.other tag) = none) := by
  refine ⟨?_, ?_, fun _ => rfl, fun _ _ _ => rfl, fun _ => rfl⟩
  · by_cases ht : toolUses bs = [] <;> simp [runLoop, hc, ht]
  · by_cases ht : toolUses bs = [] <;> simp [runLoopS, hc, ht]

/-- C8 witness: the amended theorem applied against `envAllTools`. -/
theorem c8_witness :
    envAllTools.complete [] = .ok [RespBlock.toolUse "id1" "tool" "input"] ∧
    (runLoop envAllTools 1 []).msgs =
      (if toolUses [RespBlock.toolUse "id1" "tool" "input"] = [] then
        [] ++ [⟨.assistant, convertBlocks [RespBlock.toolUse "id1" "tool" "input"]⟩]
      else (runLoop envAllTools 0 ([] ++ [⟨.assistant,
          convertBlocks [RespBlock.toolUse "id1" "tool" "input"]⟩,
        ⟨.user, resultsFor envAllTools
          (toolUses [RespBlock.toolUse "id1" "tool" "input"])⟩])).msgs) :=
  ⟨rfl, (c8_transcript_append envAllTools "s" 0 [] _ rfl).1⟩

/-- Loop oracle whose completion service replies with no content blocks. -/
def envEmptyReply : LoopEnv :=
  ⟨fun _ => .ok [], fun _ _ => .error "", fun _ => "", fun _ => ""⟩

/-- C9, counterexample: a first reply with no tool-use and no text block
returns the placeholder `"(No text returned.)"` in the console client and
`"(No response)"` in the Slack client — neither is the string
`"no textual result"` named by the claim. -/
theorem c9_counterexample :
    (process_query envEmptyReply "q").answer = "(No text returned.)" ∧
    (process_with_context envEmptyReply "s" "q" []).answer = "(No response)" ∧
    "(No text returned.)" ≠ "no textual result" ∧
    "(No response)" ≠ "no textual result" :=
  ⟨rfl, rfl, by decide, by decide⟩

theorem runLoop_no_tools (env : LoopEnv) (fuel : Nat) (msgs : List Message)
    (bs : List RespBlock) (hc : env.complete msgs = .ok bs)
    (hno : toolUses bs = []) :
    runLoop env (fuel + 1) msgs =
      ⟨finalAnswer "(No text returned.)" bs, 1,
        msgs ++ [⟨.assistant, convertBlocks bs⟩]⟩ := by
  simp [runLoop, hc, hno]

theorem runLoopS_no_tools (env : LoopEnv) (sid : String) (fuel : Nat)
    (msgs : List Message) (bs : List RespBlock)
    (hc : env.complete msgs = .ok bs) (hno : toolUses bs = []) :
    runLoopS env sid (fuel + 1) msgs =
      ⟨finalAnswer "(No response)" bs, 1,
        msgs ++ [⟨.assistant, convertBlocks bs⟩],
        [.msg sid "assistant" (finalAnswer "(No response)" bs)]⟩ := by
  simp [runLoopS, hc, hno]

/-- C9 (amended): when the first completion reply contains no tool-use block,
both clients stop after exactly one round and return the newline-joined,
trimmed concatenation of the reply's text blocks; with no text blocks either,
the console client returns the placeholder `"(No text returned.)"` and the
Slack client `"(No response)"`. -/
theorem c9_single_round (env envS : LoopEnv) (q sid : String)
    (history : List (Role × String)) (bs bs' : List RespBlock)
    (hc : env.complete [⟨.user, [.text q]⟩] = .ok bs)
    (hno : toolUses bs = [])
    (hc' : envS.complete (history.dropLast.map
        (fun h => (⟨h.1, [.text h.2]⟩ : Message))
      ++ [⟨.user, [.text q]⟩]) = .ok bs')
    (hno' : toolUses bs' = []) :
    (process_query env q).calls = 1 ∧
    (process_query env q).answer =
      (if textBlocks bs = [] then "(No text returned.)"
       else pyStrip (String.intercalate "\n" (textBlocks bs))) ∧
    (process_with_context envS sid q history).calls = 1 ∧
    (process_with_context envS sid q history).answer =
      (if textBlocks bs' = [] then "(No response)"
       else pyStrip (String.intercalate "\n" (textBlocks bs'))) := by
  have h1 : process_query env q = runLoop env (99 + 1) [⟨.user, [.text q]⟩] := rfl
  have h2 := runLoop_no_tools env 99 [⟨.user, [.text q]⟩] bs hc hno
  have h3 := runLoopS_no_tools envS sid 9 (history.dropLast.map
      (fun h => (⟨h.1, [.text h.2]⟩ : Message)) ++ [⟨.user, [.text q]⟩]) bs' hc' hno'
  refine ⟨?_, ?_, ?_, ?_⟩
  · rw [h1, h2]
  · rw [h1, h2]
    simp [finalAnswer]
  · show (runLoopS envS sid (9 + 1) _).calls = 1
    rw [h3]
  · show (runLoopS envS sid (9 + 1) _).answer = _
    rw [h3]
    simp [finalAnswer]

/-- C9 witness: a text-only first reply terminates in one round with the
joined text. -/
def envTextReply : LoopEnv :=
  ⟨fun _ => .ok [.text "hello"], fun _ _ => .error "",
   fun _ => "", fun _ => ""⟩

theorem c9_witness :
    toolUses [RespBlock.text "hello"] = [] ∧
    (process_query envTextReply "q").calls = 1 ∧
    (process_query envTextReply "q").answer =
      (if textBlocks [RespBlock.text "hello"] = [] then "(No text returned.)"
       else pyStrip (String.intercalate "\n" (textBlocks [RespBlock.text "hello"]))) := by
  have h := c9_single_round envTextReply envTextReply "q" "s" [] _ _ rfl
    (by decide) rfl (by decide)
  exact ⟨by decide, h.1, h.2.1⟩

end Terminus
